import Mathlib

/-!
Verification development for the core runtime of the Streamlit repository:
the Delta Queue (ForwardMsgQueue), the Script Execution Engine
(ScriptRunner and its ScriptRequests state machine), the Fragment
Registry and the Widget State Store.

The runtime implementation itself is not part of the source tree that was
provided (only its unit tests are), so every definition below is modelled
from the natural-language specification of the repository, with the unit
tests (src/lib/tests/streamlit/runtime/forward_msg_queue_test.py and
src/lib/tests/streamlit/runtime/scriptrunner/script_runner_test.py)
pinning down the behaviour wherever the specification is ambiguous.
-/

/-! ## Data model: DeltaPath, ForwardMsg -/

/-- Modelled from the spec: a DeltaPath is "an ordered sequence of integers
identifying a node's position inside a container tree, qualified by a root
container (e.g., main area vs. sidebar)". `container` is the root container
tag (0 = MAIN, 1 = SIDEBAR) and `indices` the sibling-index sequence,
ending in the element's own index, as built by `make_delta_path`. -/
structure DeltaPath where
  container : Nat
  indices : List Nat
deriving DecidableEq

/-- Modelled from the spec: the status carried by a `script_finished`
lifecycle message: "script_finished(success|early_for_rerun|compile_error)".
Only the two statuses exercised by the queue-clearing rules are needed. -/
inductive ScriptFinishedStatus
  | FINISHED_SUCCESSFULLY
  | FINISHED_EARLY_FOR_RERUN
deriving DecidableEq

/-- Modelled from the spec: the payload of an element-update delta is a
closed tagged variant; only the kinds the claims need are distinguished
(a text element and a rendered exception element). -/
inductive ElementPayload
  | textElement (body : String)
  | exceptionElement (message : String)
deriving DecidableEq

/-- Modelled from the spec: a ForwardMsg is "either a delta (element update
or container creation) tagged with a DeltaPath" (and an optional fragment
id, empty string when untagged) "or a lifecycle/control message
(script-started, script-finished, session-status-changed, etc.)". -/
inductive ForwardMsg
  | newElement (path : DeltaPath) (fragmentId : String) (payload : ElementPayload)
  | addBlock (path : DeltaPath) (fragmentId : String)
  | newSession
  | scriptFinished (status : ScriptFinishedStatus)
  | sessionStatusChanged (scriptIsRunning : Bool)
  | parentMessage (message : String)
deriving DecidableEq

/-- The DeltaPath carried by a message, when it is a delta-kind message. -/
def ForwardMsg.deltaPath? : ForwardMsg → Option DeltaPath
  | .newElement p _ _ => some p
  | .addBlock p _ => some p
  | _ => none

/-- True for delta-kind messages (element update or container creation). -/
def ForwardMsg.isDeltaMsg (m : ForwardMsg) : Bool :=
  m.deltaPath?.isSome

/-- True for container-creation (`add_block`) messages. -/
def ForwardMsg.isAddBlock : ForwardMsg → Bool
  | .addBlock _ _ => true
  | _ => false

/-- Modelled from the spec: a "replaceable delta" is a delta-kind message
that is "not itself a container-creation message". -/
def ForwardMsg.isReplaceableDelta : ForwardMsg → Bool
  | .newElement _ _ _ => true
  | _ => false

/-- True when the message is a delta-kind message located at path `p`. -/
def ForwardMsg.hasPath (m : ForwardMsg) (p : DeltaPath) : Bool :=
  m.deltaPath? == some p

/-- Modelled from the spec: lifecycle/control messages are "exempt from
coalescing and retained verbatim across certain queue-clear operations".
The retained kinds are new_session, script_finished, session_status_changed
and parent_message, as in the unit tests. -/
def ForwardMsg.isLifecycleMsg : ForwardMsg → Bool
  | .newSession => true
  | .scriptFinished _ => true
  | .sessionStatusChanged _ => true
  | .parentMessage _ => true
  | _ => false

/-- The fragment id tagging a delta message; the empty string both for
untagged deltas and for lifecycle messages, as in the protobuf encoding. -/
def ForwardMsg.fragmentId : ForwardMsg → String
  | .newElement _ f _ => f
  | .addBlock _ f => f
  | _ => ""

/-! ## Delta Queue (ForwardMsgQueue) -/

/-- The session-scoped ordered outbox: the `_queue` list of ForwardMsgs. -/
abbrev ForwardMsgQueue := List ForwardMsg

/-- Replace the first replaceable delta sharing `msg`'s DeltaPath in place
(same queue position); if none exists — in particular if the only occupant
of that path is a container-creation message — append at the end. This is
the coalescing step used by `ForwardMsgQueue.enqueue` for replaceable
deltas; the queue never holds two replaceable deltas at one path, so the
first match is the unique one. -/
def ForwardMsgQueue.enqueueRepl : ForwardMsgQueue → ForwardMsg → ForwardMsgQueue
  | [], msg => [msg]
  | m :: rest, msg =>
    if m.isReplaceableDelta && (m.deltaPath? == msg.deltaPath?) then msg :: rest
    else m :: ForwardMsgQueue.enqueueRepl rest msg

/-- Modelled from the spec: `enqueue(msg)`: "if `msg` is a 'delta' kind
(carries a DeltaPath and is not itself a container-creation message) and an
earlier queued message with the identical DeltaPath exists and that earlier
message is *also* a replaceable delta (not a container-creation message),
the new message replaces it in place (same queue position); otherwise
append. Lifecycle/control messages are always appended, never coalesced." -/
def ForwardMsgQueue.enqueue (q : ForwardMsgQueue) (msg : ForwardMsg) : ForwardMsgQueue :=
  if msg.isReplaceableDelta then ForwardMsgQueue.enqueueRepl q msg
  else q ++ [msg]

/-- Enqueue a whole sequence of messages into an initially empty queue. -/
def ForwardMsgQueue.enqueueAll (msgs : List ForwardMsg) : ForwardMsgQueue :=
  List.foldl ForwardMsgQueue.enqueue [] msgs

/-- Modelled from the spec: `flush() -> ordered list of msg`: "atomically
drain and return the queue; queue becomes empty". Returns the drained
message list and the new (empty) queue. -/
def ForwardMsgQueue.flush (q : ForwardMsgQueue) : List ForwardMsg × ForwardMsgQueue :=
  (q, [])

/-- Rewrite an in-flight "script finished (successfully)" message to the
early/interrupted-for-rerun variant; leave every other message unchanged. -/
def ForwardMsgQueue.rewriteScriptFinished : ForwardMsg → ForwardMsg
  | .scriptFinished .FINISHED_SUCCESSFULLY => .scriptFinished .FINISHED_EARLY_FOR_RERUN
  | m => m

/-- Modelled from the spec: `clear(retain_lifecycle_msgs, fragment_ids_this_run)`:
"when `retain_lifecycle_msgs` is true, lifecycle/control messages are kept
(with an in-flight 'script finished' message rewritten to an
'early/interrupted' variant rather than dropped) while ordinary deltas are
dropped; when `fragment_ids_this_run` is supplied, only delta messages
tagged with one of those fragment IDs are dropped — deltas belonging to
other fragments or to no fragment are preserved." An empty
`fragmentIdsThisRun` list models the argument not being supplied. Per the
unit test `test_clear_with_fragmentid_preserve_unrelated_delta_messages`,
the script-finished rewrite happens only when no fragment ids are supplied:
with fragment ids, the successful script-finished message is retained
verbatim. -/
def ForwardMsgQueue.clear (q : ForwardMsgQueue) (retainLifecycleMsgs : Bool)
    (fragmentIdsThisRun : List String) : ForwardMsgQueue :=
  if !retainLifecycleMsgs then []
  else
    let kept := q.filter fun m =>
      m.isLifecycleMsg ||
        (!fragmentIdsThisRun.isEmpty && !(fragmentIdsThisRun.contains m.fragmentId))
    if fragmentIdsThisRun.isEmpty then kept.map ForwardMsgQueue.rewriteScriptFinished
    else kept

/-! ## Queue coalescing helper lemmas -/

/-- The replaceable deltas located at path `p` in a message list. -/
def replAt (q : List ForwardMsg) (p : DeltaPath) : List ForwardMsg :=
  q.filter fun m => m.isReplaceableDelta && m.hasPath p

/-- The container-creation messages located at path `p` in a message list. -/
def blocksAt (q : List ForwardMsg) (p : DeltaPath) : List ForwardMsg :=
  q.filter fun m => m.isAddBlock && m.hasPath p

/-! ## Widget values and rerun requests -/

/-- Modelled from the spec: the typed values held by the Widget State
Store; the kinds exercised by the widgets test script (checkbox, text
area, radio, button). A button is a trigger-type widget. -/
inductive WidgetValue
  | boolValue (b : Bool)
  | stringValue (s : String)
  | intValue (n : Int)
  | triggerValue (b : Bool)
deriving DecidableEq

/-- True for trigger-type widget values (e.g. a button press). -/
def WidgetValue.isTriggerValue : WidgetValue → Bool
  | .triggerValue _ => true
  | _ => false

/-- Modelled from the spec: an inbound rerun request carries
"widget_state_updates: ordered list of (WidgetID, typed value) or empty,
fragment_id_queue: ordered list of FragmentID or empty". The navigation
parameters are irrelevant to the claims and omitted. -/
structure RerunData where
  widgetStates : List (String × WidgetValue) := []
  fragmentIdQueue : List String := []
deriving DecidableEq

/-! ## ScriptRequests state machine -/

/-- Modelled from the spec: the engine's pending-request state: CONTINUE
(no pending interrupt), a pending RERUN carrying its RerunData, or a
pending STOP. -/
inductive ScriptRequestState
  | CONTINUE
  | RERUN (data : RerunData)
  | STOP
deriving DecidableEq

/-- Modelled from the spec: `request_stop()`: "asks the engine to halt and
terminate; idempotent". A pending STOP always wins. -/
def ScriptRequests.request_stop (_ : ScriptRequestState) : ScriptRequestState :=
  .STOP

/-- Modelled from the spec: `request_rerun(data)` queues a rerun request;
"only the most recent request's widget-state and fragment-target data is
kept ... except that a pending STOP request always wins over a pending
RERUN". Returns the new state and whether the request was accepted. -/
def ScriptRequests.request_rerun (s : ScriptRequestState) (newData : RerunData) :
    ScriptRequestState × Bool :=
  match s with
  | .STOP => (.STOP, false)
  | .CONTINUE => (.RERUN newData, true)
  | .RERUN _ => (.RERUN newData, true)

/-- Modelled from the spec: the dedicated control-flow signals, "distinct
from ordinary exceptions (a 'rerun' signal or a 'stop' signal)", raised at
a cooperative yield point. -/
inductive ControlSignal
  | StopException
  | RerunException (data : RerunData)
deriving DecidableEq

/-- Modelled from the spec: the check performed at every cooperative yield
point: a pending RERUN is popped (state returns to CONTINUE) and surfaced
as a rerun signal; a pending STOP is surfaced as a stop signal; otherwise
nothing happens. -/
def ScriptRequests.on_scriptrunner_yield :
    ScriptRequestState → Option ControlSignal × ScriptRequestState
  | .CONTINUE => (none, .CONTINUE)
  | .RERUN d => (some (.RerunException d), .CONTINUE)
  | .STOP => (some .StopException, .STOP)

/-- The ScriptRunner state visible to the enqueue path while user code is
executing on the script thread: the pending-request state, the session's
Delta Queue, and an instrumentation counter recording how many times the
cooperative interrupt check ran. -/
structure RunnerState where
  requests : ScriptRequestState
  queue : ForwardMsgQueue
  controlChecks : Nat
deriving DecidableEq

/-- Modelled from the spec: the cooperative interrupt check performed on
the script thread; it consults the request queue once and unwinds via a
control signal when a stop or rerun request is pending. -/
def ScriptRunner.maybe_handle_execution_control_request (s : RunnerState) :
    Option ControlSignal × RunnerState :=
  let r := ScriptRequests.on_scriptrunner_yield s.requests
  (r.1, { s with requests := r.2, controlChecks := s.controlChecks + 1 })

/-- Modelled from the spec: "every call that would enqueue a ForwardMsg
first cooperatively checks for a pending interrupt request (stop or rerun)
by consulting the request queue; if one exists, execution unwinds via a
control-flow signal distinct from ordinary exceptions"; otherwise the
message is appended to the session's Delta Queue. -/
def ScriptRunner.enqueue_forward_msg (s : RunnerState) (msg : ForwardMsg) :
    Option ControlSignal × RunnerState :=
  match ScriptRunner.maybe_handle_execution_control_request s with
  | (some sig, s2) => (some sig, s2)
  | (none, s2) => (none, { s2 with queue := ForwardMsgQueue.enqueue s2.queue msg })

/-! ## ScriptRunner events and the run loop -/

/-- Modelled from the spec: the engine's event stream states:
"SCRIPT_STARTED, ENQUEUE_FORWARD_MSG (one per delta-producing call, a
'data' event distinct from the others), SCRIPT_STOPPED_WITH_SUCCESS,
SCRIPT_STOPPED_WITH_COMPILE_ERROR, SCRIPT_STOPPED_FOR_RERUN,
FRAGMENT_STOPPED_WITH_SUCCESS, SHUTDOWN". -/
inductive ScriptRunnerEvent
  | SCRIPT_STARTED
  | ENQUEUE_FORWARD_MSG
  | SCRIPT_STOPPED_WITH_SUCCESS
  | SCRIPT_STOPPED_WITH_COMPILE_ERROR
  | SCRIPT_STOPPED_FOR_RERUN
  | FRAGMENT_STOPPED_WITH_SUCCESS
  | SHUTDOWN
deriving DecidableEq

/-- The four terminal events a run attempt can end with. -/
def ScriptRunnerEvent.isTerminalEvent : ScriptRunnerEvent → Bool
  | .SCRIPT_STOPPED_WITH_SUCCESS => true
  | .SCRIPT_STOPPED_WITH_COMPILE_ERROR => true
  | .SCRIPT_STOPPED_FOR_RERUN => true
  | .FRAGMENT_STOPPED_WITH_SUCCESS => true
  | _ => false

/-- Modelled from the spec: what a single run attempt of the user's script
(or fragment batch) can do, abstracted to its observable effect on the
event stream: run to completion emitting some deltas (uncaught user
exceptions are rendered and still complete), fail to compile, or be
interrupted at a yield point by a rerun or stop request after emitting
some deltas. -/
inductive RunBehavior
  | completes (deltas : Nat)
  | compileError
  | interruptedForRerun (deltas : Nat)
  | interruptedByStop (deltas : Nat)
deriving DecidableEq

/-- One run attempt: whether it is a fragment-scoped run, and what the
executed code does. -/
structure RunAttempt where
  isFragmentRun : Bool
  behavior : RunBehavior
deriving DecidableEq

/-- The terminal success event: FRAGMENT_STOPPED_WITH_SUCCESS for
fragment-scoped runs and SCRIPT_STOPPED_WITH_SUCCESS otherwise. A stop
interrupt also reports success (the run is not an engine failure). -/
def successEvent (isFragmentRun : Bool) : ScriptRunnerEvent :=
  if isFragmentRun then .FRAGMENT_STOPPED_WITH_SUCCESS else .SCRIPT_STOPPED_WITH_SUCCESS

/-- Modelled from the spec: the events one run attempt emits:
SCRIPT_STARTED, one ENQUEUE_FORWARD_MSG per delta-producing call, then
exactly one terminal event chosen by how the attempt ended. -/
def attemptEvents (a : RunAttempt) : List ScriptRunnerEvent :=
  match a.behavior with
  | .compileError => [.SCRIPT_STARTED, .SCRIPT_STOPPED_WITH_COMPILE_ERROR]
  | .completes n =>
    .SCRIPT_STARTED :: (List.replicate n .ENQUEUE_FORWARD_MSG ++ [successEvent a.isFragmentRun])
  | .interruptedForRerun n =>
    .SCRIPT_STARTED :: (List.replicate n .ENQUEUE_FORWARD_MSG ++ [.SCRIPT_STOPPED_FOR_RERUN])
  | .interruptedByStop n =>
    .SCRIPT_STARTED :: (List.replicate n .ENQUEUE_FORWARD_MSG ++ [successEvent a.isFragmentRun])

/-- Modelled from the spec: the engine's re-run loop: the thread loops
popping pending run requests and executing one attempt per request; when
the pending request is a STOP the loop exits and the engine emits a single
SHUTDOWN as its last event. The input list is the sequence of run attempts
the engine ends up servicing. -/
def engineTrace : List RunAttempt → List ScriptRunnerEvent
  | [] => [.SHUTDOWN]
  | a :: rest => attemptEvents a ++ engineTrace rest

/-! ## Full-script runs: user scripts, compile errors, uncaught exceptions -/

/-- Modelled from the spec: an abstract user script for a full-script run:
the text bodies it emits in order, the WidgetIDs its widget calls register
("seen" for the prune pass), and whether it raises an uncaught exception
after emitting its output. -/
structure UserScript where
  bodies : List String
  widgetIds : List String
  raisesAfter : Bool
deriving DecidableEq

/-- The deltas a linear script emits: one text element per body, at the
successive root-container positions handed out by the Cursor starting at
sibling index `i`. -/
def scriptDeltasFrom (i : Nat) : List String → List ForwardMsg
  | [] => []
  | b :: rest =>
    ForwardMsg.newElement ⟨0, [i]⟩ "" (.textElement b) :: scriptDeltasFrom (i + 1) rest

/-- The rendered exception element enqueued at the current tree position
(sibling index `i`) when user code raises an uncaught exception. -/
def exceptionDelta (i : Nat) : ForwardMsg :=
  .newElement ⟨0, [i]⟩ "" (.exceptionElement "uncaught app exception")

/-- Modelled from the spec: a full-script run: the script's deltas are
emitted in order; "exceptions raised by user code during a full run are
caught, converted into an 'exception' element enqueued at the current tree
position, and the run still reports SCRIPT_STOPPED_WITH_SUCCESS". Returns
the ForwardMsgs produced and the terminal event. -/
def runFullScript (sc : UserScript) : List ForwardMsg × ScriptRunnerEvent :=
  let ds := scriptDeltasFrom 0 sc.bodies
  if sc.raisesAfter then
    (ds ++ [exceptionDelta sc.bodies.length], .SCRIPT_STOPPED_WITH_SUCCESS)
  else
    (ds, .SCRIPT_STOPPED_WITH_SUCCESS)

/-- Modelled from the spec: what the engine is given to run: a missing
script file, a script that fails to compile (syntax error), or a script
that compiles. -/
inductive ScriptSource
  | missingFile
  | syntaxError
  | compiles (sc : UserScript)
deriving DecidableEq

/-- Modelled from the spec: one full run attempt from a script source.
"Compile/Load errors (script file missing, syntax error): fatal to the
run, reported as SCRIPT_STOPPED_WITH_COMPILE_ERROR" — they short-circuit
before any user code executes, so no delta is produced. Otherwise the
script runs; the events are SCRIPT_STARTED, one ENQUEUE_FORWARD_MSG per
produced ForwardMsg, and the terminal event. Returns the event list and
the produced ForwardMsgs. -/
def runScriptAttempt (src : ScriptSource) :
    List ScriptRunnerEvent × List ForwardMsg :=
  match src with
  | .missingFile => ([.SCRIPT_STARTED, .SCRIPT_STOPPED_WITH_COMPILE_ERROR], [])
  | .syntaxError => ([.SCRIPT_STARTED, .SCRIPT_STOPPED_WITH_COMPILE_ERROR], [])
  | .compiles sc =>
    let r := runFullScript sc
    (.SCRIPT_STARTED :: (r.1.map (fun _ => .ENQUEUE_FORWARD_MSG) ++ [r.2]), r.1)

/-! ## Fragment Registry and fragment batches -/

/-- Modelled from the spec: the observable behaviour of one registered
fragment callable: the element bodies it emits, and whether invoking it
raises an exception. -/
structure FragmentBehavior where
  emits : List String
  raisesError : Bool
deriving DecidableEq

/-- Modelled from the spec: the Fragment Registry is "keyed storage of
fragment callables for a session", keyed by FragmentID. -/
abbrev FragmentStorage := List (String × FragmentBehavior)

/-- Modelled from the spec: `get(id) -> callable`; `none` when the id is
unknown (a stale/cross-session reference). -/
def FragmentStorage.get (reg : FragmentStorage) (fid : String) :
    Option FragmentBehavior :=
  (reg.find? (fun e => e.1 == fid)).map (fun e => e.2)

/-- Modelled from the spec: "looking up an unknown ID is a distinct error
kind from the callable raising during invocation". -/
inductive FragmentRunError
  | FragmentStorageKeyError (fid : String)
deriving DecidableEq

/-- The observable outcome of a fragment batch: which fragment ids were
invoked (in order), which raised an exception that was caught per-fragment
and rendered, and whether a registry lookup failed. -/
structure FragmentBatchResult where
  invoked : List String
  renderedErrors : List String
  lookupError : Option FragmentRunError
deriving DecidableEq

/-- Modelled from the spec: "if the request targets a nonempty list of
fragment IDs, look each up in the Fragment Registry and invoke them in the
order given, catching exceptions per-fragment so that one fragment's
failure does not prevent subsequent fragments in the same batch from
running". An unknown id surfaces as a FragmentStorageKeyError. -/
def runFragmentQueue (reg : FragmentStorage) : List String → FragmentBatchResult
  | [] => ⟨[], [], none⟩
  | fid :: rest =>
    match FragmentStorage.get reg fid with
    | none => ⟨[], [], some (.FragmentStorageKeyError fid)⟩
    | some b =>
      let r := runFragmentQueue reg rest
      ⟨fid :: r.invoked, (if b.raisesError then [fid] else []) ++ r.renderedErrors,
        r.lookupError⟩

/-- A fragment-scoped run attempt: SCRIPT_STARTED, then the batch is
invoked, and when no registry lookup failed the batch terminates with
FRAGMENT_STOPPED_WITH_SUCCESS (even if some fragments raised). -/
def runFragmentBatch (reg : FragmentStorage) (queue : List String) :
    FragmentBatchResult × List ScriptRunnerEvent :=
  let r := runFragmentQueue reg queue
  match r.lookupError with
  | some _ => (r, [.SCRIPT_STARTED])
  | none => (r, [.SCRIPT_STARTED, .FRAGMENT_STOPPED_WITH_SUCCESS])

/-! ## Widget State Store -/

/-- The Widget State Store contents: WidgetID keyed typed values. -/
abbrev WidgetStore := List (String × WidgetValue)

/-- The stored value for a WidgetID, when present. -/
def SessionState.lookupWidgetValue (store : WidgetStore) (wid : String) :
    Option WidgetValue :=
  (store.find? (fun e => e.1 == wid)).map (fun e => e.2)

/-- Modelled from the spec: "requesting the value of an ID never created is
a programmer error reported as a lookup failure ... not silently
defaulted" — a KeyError, as asserted by test_remove_nonexistent_elements. -/
inductive WidgetLookupError
  | KeyError (wid : String)
deriving DecidableEq

/-- Dictionary-style lookup in the Widget State Store: absent ids raise a
KeyError rather than returning a stale or default value. -/
def SessionState.getWidgetValue (store : WidgetStore) (wid : String) :
    Except WidgetLookupError WidgetValue :=
  match SessionState.lookupWidgetValue store wid with
  | some v => .ok v
  | none => .error (.KeyError wid)

/-- Modelled from the spec: `prune(seen_ids)`: "remove entries not in
`seen_ids`; invoked only after a full run". -/
def SessionState.prune (store : WidgetStore) (seenIds : List String) : WidgetStore :=
  store.filter (fun e => seenIds.contains e.1)

/-- The Widget State Store after a full-script run completes: every
WidgetID not re-registered by a widget call during the run is removed. -/
def storeAfterFullRun (store : WidgetStore) (sc : UserScript) : WidgetStore :=
  SessionState.prune store sc.widgetIds

/-- Modelled from the spec: a client-sourced write: it "always takes
precedence for the next run", overwriting the stored value or inserting a
new entry. -/
def SessionState.setWidgetValue (store : WidgetStore) (wid : String)
    (v : WidgetValue) : WidgetStore :=
  if (SessionState.lookupWidgetValue store wid).isSome then
    store.map (fun e => if e.1 == wid then (wid, v) else e)
  else
    store ++ [(wid, v)]

/-- Apply an inbound rerun request's widget-state updates, in order. -/
def applyClientUpdates (store : WidgetStore) (ups : List (String × WidgetValue)) :
    WidgetStore :=
  List.foldl (fun s u => SessionState.setWidgetValue s u.1 u.2) store ups

/-- Modelled from the spec: when a run finishes, trigger-type widget values
revert to their resting value `false`; non-trigger values are retained. -/
def SessionState.resetTriggers (store : WidgetStore) : WidgetStore :=
  store.map (fun e =>
    if e.2.isTriggerValue then (e.1, WidgetValue.triggerValue false) else e)

/-- One full rerun as seen by the Widget State Store: the request's client
updates are applied (they take precedence), the run reads from that store,
and when the run finishes the trigger values are reset. Returns the store
the finished run leaves behind. -/
def runWithUpdates (store : WidgetStore) (ups : List (String × WidgetValue)) :
    WidgetStore :=
  SessionState.resetTriggers (applyClientUpdates store ups)

/-! ## Sample messages mirroring the unit tests -/

/-- The delta path `make_delta_path(RootContainer.MAIN, (), 0)`. -/
def samplePath : DeltaPath := ⟨0, [0]⟩

/-- An `add_block` container-creation message at the sample path. -/
def ADD_BLOCK_MSG : ForwardMsg := .addBlock samplePath ""

/-- A text delta at the sample path with body "text1". -/
def TEXT_DELTA_MSG1 : ForwardMsg := .newElement samplePath "" (.textElement "text1")

/-- A text delta at the sample path with body "text2". -/
def TEXT_DELTA_MSG2 : ForwardMsg := .newElement samplePath "" (.textElement "text2")

/-- A new-session lifecycle message. -/
def NEW_SESSION_MSG : ForwardMsg := .newSession

/-- A script-finished(successfully) lifecycle message. -/
def SCRIPT_FINISHED_MSG : ForwardMsg := .scriptFinished .FINISHED_SUCCESSFULLY

/-- A session-status-changed lifecycle message. -/
def SESSION_STATUS_CHANGED_MSG : ForwardMsg := .sessionStatusChanged true

/-- A parent-message lifecycle message. -/
def PARENT_MSG : ForwardMsg := .parentMessage "hello"

/-- A delta tagged with the fragment id of the currently rerunning
fragment. -/
def CURRENT_FRAGMENT_DELTA : ForwardMsg :=
  .newElement ⟨0, [1]⟩ "current_fragment_id1" (.textElement "text1")

/-- A delta tagged with an unrelated fragment id. -/
def UNRELATED_FRAGMENT_DELTA : ForwardMsg :=
  .newElement ⟨0, [3]⟩ "unrelated_fragment_id" (.textElement "text1")

/-- An untagged delta (empty fragment id). -/
def UNTAGGED_DELTA : ForwardMsg := .newElement ⟨0, [4]⟩ "" (.textElement "text1")

theorem replAt_append (q₁ q₂ : List ForwardMsg) (p : DeltaPath) :
    replAt (q₁ ++ q₂) p = replAt q₁ p ++ replAt q₂ p := by
  simp [replAt, List.filter_append]

theorem blocksAt_append (q₁ q₂ : List ForwardMsg) (p : DeltaPath) :
    blocksAt (q₁ ++ q₂) p = blocksAt q₁ p ++ blocksAt q₂ p := by
  simp [blocksAt, List.filter_append]

theorem isAddBlock_eq_false_of_repl (m : ForwardMsg) (h : m.isReplaceableDelta = true) :
    m.isAddBlock = false := by
  cases m <;> simp [ForwardMsg.isAddBlock, ForwardMsg.isReplaceableDelta] at *

theorem hasPath_iff (m : ForwardMsg) (p : DeltaPath) :
    m.hasPath p = true ↔ m.deltaPath? = some p := by
  simp [ForwardMsg.hasPath]

/-- A replaceable delta always carries a DeltaPath. -/
theorem deltaPath_isSome_of_repl (m : ForwardMsg) (h : m.isReplaceableDelta = true) :
    m.deltaPath?.isSome = true := by
  cases m <;> simp [ForwardMsg.deltaPath?, ForwardMsg.isReplaceableDelta] at *

theorem replAt_nil (p : DeltaPath) : replAt [] p = [] := rfl

theorem replAt_cons (a : ForwardMsg) (q : List ForwardMsg) (p : DeltaPath) :
    replAt (a :: q) p =
      if a.isReplaceableDelta && a.hasPath p then a :: replAt q p else replAt q p := by
  simp only [replAt, List.filter_cons]

theorem blocksAt_cons (a : ForwardMsg) (q : List ForwardMsg) (p : DeltaPath) :
    blocksAt (a :: q) p =
      if a.isAddBlock && a.hasPath p then a :: blocksAt q p else blocksAt q p := by
  simp only [blocksAt, List.filter_cons]

/-- Effect of the in-place replacement step on the replaceable deltas at a
path, assuming that path currently holds at most one replaceable delta. -/
theorem replAt_enqueueRepl (m : ForwardMsg) (p : DeltaPath)
    (hrepl : m.isReplaceableDelta = true) :
    ∀ q : List ForwardMsg, (replAt q p).length ≤ 1 →
      replAt (ForwardMsgQueue.enqueueRepl q m) p =
        if m.hasPath p then [m] else replAt q p := by
  intro q
  induction q with
  | nil =>
    intro _
    cases hp : m.hasPath p <;>
      simp [ForwardMsgQueue.enqueueRepl, replAt_cons, replAt_nil, hrepl, hp]
  | cons a rest ih =>
    intro hq
    cases hc : (a.isReplaceableDelta && (a.deltaPath? == m.deltaPath?)) with
    | true =>
      -- `a` is replaced in place by `m`
      rw [Bool.and_eq_true] at hc
      obtain ⟨harepl, hapath⟩ := hc
      rw [beq_iff_eq] at hapath
      simp only [ForwardMsgQueue.enqueueRepl, harepl, hapath, beq_self_eq_true,
        Bool.and_self, if_true]
      cases hp : m.hasPath p with
      | true =>
        have hap : a.hasPath p = true := by
          rw [hasPath_iff] at hp ⊢; rw [hapath]; exact hp
        rw [replAt_cons, harepl, hap] at hq
        simp only [Bool.and_self, if_true, List.length_cons] at hq
        have hrest0 : replAt rest p = [] :=
          List.length_eq_zero.mp (by omega)
        rw [replAt_cons, replAt_cons, hrepl, hp, harepl, hap]
        simp [hrest0]
      | false =>
        have hap : a.hasPath p = false := by
          rw [ForwardMsg.hasPath] at hp ⊢; rw [hapath]; exact hp
        rw [replAt_cons, replAt_cons, hap, hp]
        simp
    | false =>
      -- `a` is kept; the tail absorbs the new message
      simp only [ForwardMsgQueue.enqueueRepl, hc, Bool.false_eq_true, if_false]
      have hqrest : (replAt rest p).length ≤ 1 := by
        rw [replAt_cons] at hq
        by_cases hfa : (a.isReplaceableDelta && a.hasPath p) = true
        · rw [if_pos hfa] at hq
          have h2 : (replAt rest p).length + 1 ≤ 1 := by simpa using hq
          omega
        · rwa [if_neg hfa] at hq
      have ihr := ih hqrest
      cases hp : m.hasPath p with
      | true =>
        -- `a` cannot be a replaceable delta at p, else it would have matched
        have hano : (a.isReplaceableDelta && a.hasPath p) = false := by
          cases harp : a.isReplaceableDelta with
          | false => simp
          | true =>
            have hb : (a.deltaPath? == m.deltaPath?) = false := by
              cases hb : (a.deltaPath? == m.deltaPath?) with
              | false => rfl
              | true => rw [harp, hb] at hc; simp at hc
            rw [hasPath_iff] at hp
            have hne : a.deltaPath? ≠ some p := by
              intro hcontra
              rw [hcontra, hp, beq_self_eq_true] at hb
              simp at hb
            simp only [Bool.true_and, ForwardMsg.hasPath]
            simp [hne]
        rw [replAt_cons, hano, ihr, hp]
        simp
      | false =>
        rw [replAt_cons, ihr, hp, replAt_cons]
        simp

/-- Effect of one enqueue on the replaceable deltas at path `p`, assuming
the queue invariant that each path holds at most one replaceable delta. -/
theorem replAt_enqueue (q : List ForwardMsg) (m : ForwardMsg) (p : DeltaPath)
    (hq : (replAt q p).length ≤ 1) :
    replAt (ForwardMsgQueue.enqueue q m) p =
      if m.isReplaceableDelta && m.hasPath p then [m] else replAt q p := by
  unfold ForwardMsgQueue.enqueue
  cases hrepl : m.isReplaceableDelta with
  | true =>
    rw [if_pos rfl, replAt_enqueueRepl m p hrepl q hq]
    simp
  | false =>
    rw [if_neg (by simp), replAt_append]
    rw [replAt_cons, hrepl, replAt_nil]
    simp

/-- One enqueue step preserves the at-most-one-replaceable-per-path invariant. -/
theorem replAt_enqueue_invariant (q : List ForwardMsg) (m : ForwardMsg)
    (hq : ∀ p, (replAt q p).length ≤ 1) :
    ∀ p, (replAt (ForwardMsgQueue.enqueue q m) p).length ≤ 1 := by
  intro p
  rw [replAt_enqueue q m p (hq p)]
  by_cases h : (m.isReplaceableDelta && m.hasPath p) = true
  · rw [if_pos h]; simp
  · rw [if_neg h]; exact hq p

/-- A list of length at most one is recovered from its last element. -/
theorem getLast_toList_of_short (l : List ForwardMsg) (h : l.length ≤ 1) :
    l.getLast?.toList = l := by
  cases l with
  | nil => rfl
  | cons x xs =>
    cases xs with
    | nil => rfl
    | cons y ys => simp at h

/-- Folding a message sequence into a queue satisfying the invariant: the
replaceable deltas surviving at each path are exactly the last one enqueued
at that path. -/
theorem replAt_foldl_enqueue (msgs : List ForwardMsg) :
    ∀ q : List ForwardMsg, (∀ p, (replAt q p).length ≤ 1) →
      ∀ p, replAt (List.foldl ForwardMsgQueue.enqueue q msgs) p =
        (replAt q p ++ replAt msgs p).getLast?.toList := by
  induction msgs with
  | nil =>
    intro q hq p
    simp only [List.foldl_nil, replAt_nil, List.append_nil]
    exact (getLast_toList_of_short _ (hq p)).symm
  | cons m rest ih =>
    intro q hq p
    rw [List.foldl_cons,
      ih (ForwardMsgQueue.enqueue q m) (replAt_enqueue_invariant q m hq) p,
      replAt_enqueue q m p (hq p), replAt_cons]
    by_cases hc : (m.isReplaceableDelta && m.hasPath p) = true
    · rw [if_pos hc, if_pos hc, List.singleton_append, List.getLast?_append_cons]
    · rw [if_neg hc, if_neg hc]

/-- Characterization of the coalescing queue built from an empty queue: at
each path, exactly the most recently enqueued replaceable delta survives. -/
theorem replAt_enqueueAll (msgs : List ForwardMsg) (p : DeltaPath) :
    replAt (ForwardMsgQueue.enqueueAll msgs) p = (replAt msgs p).getLast?.toList := by
  have h := replAt_foldl_enqueue msgs [] (fun _ => by simp [replAt_nil]) p
  rw [ForwardMsgQueue.enqueueAll, h, replAt_nil, List.nil_append]

/-- The in-place replacement step never touches container-creation
messages: the add_block messages at every path are preserved exactly. -/
theorem blocksAt_enqueueRepl (m : ForwardMsg) (hrepl : m.isReplaceableDelta = true) :
    ∀ (q : List ForwardMsg) (p : DeltaPath),
      blocksAt (ForwardMsgQueue.enqueueRepl q m) p = blocksAt q p := by
  intro q
  induction q with
  | nil =>
    intro p
    simp [ForwardMsgQueue.enqueueRepl, blocksAt_cons,
      isAddBlock_eq_false_of_repl m hrepl]
  | cons a rest ih =>
    intro p
    by_cases hc : (a.isReplaceableDelta && (a.deltaPath? == m.deltaPath?)) = true
    · simp only [ForwardMsgQueue.enqueueRepl, if_pos hc]
      rw [Bool.and_eq_true] at hc
      rw [blocksAt_cons, blocksAt_cons,
        isAddBlock_eq_false_of_repl m hrepl,
        isAddBlock_eq_false_of_repl a hc.1]
      simp
    · simp only [ForwardMsgQueue.enqueueRepl, if_neg hc]
      rw [blocksAt_cons, blocksAt_cons, ih p]

/-- Enqueuing preserves the container-creation messages already queued, and
appends a new one when the message itself is an add_block. -/
theorem blocksAt_enqueue (q : List ForwardMsg) (m : ForwardMsg) (p : DeltaPath) :
    blocksAt (ForwardMsgQueue.enqueue q m) p =
      blocksAt q p ++ (if m.isAddBlock && m.hasPath p then [m] else []) := by
  unfold ForwardMsgQueue.enqueue
  by_cases hrepl : m.isReplaceableDelta = true
  · rw [if_pos hrepl, blocksAt_enqueueRepl m hrepl q p,
      isAddBlock_eq_false_of_repl m hrepl]
    simp
  · rw [if_neg hrepl, blocksAt_append, blocksAt_cons]
    by_cases hb : (m.isAddBlock && m.hasPath p) = true
    · rw [if_pos hb, if_pos hb]
      simp [blocksAt]
    · rw [if_neg hb, if_neg hb]
      simp [blocksAt]

/-- Every container-creation message ever enqueued survives in the queue,
in enqueue order. -/
theorem blocksAt_enqueueAll (msgs : List ForwardMsg) (p : DeltaPath) :
    blocksAt (ForwardMsgQueue.enqueueAll msgs) p = blocksAt msgs p := by
  suffices h : ∀ q, blocksAt (List.foldl ForwardMsgQueue.enqueue q msgs) p =
      blocksAt q p ++ blocksAt msgs p by
    have := h []
    rwa [show blocksAt [] p = [] from rfl, List.nil_append] at this
  induction msgs with
  | nil => intro q; simp [List.foldl_nil, blocksAt]
  | cons m rest ih =>
    intro q
    rw [List.foldl_cons, ih, blocksAt_enqueue, blocksAt_cons]
    by_cases hb : (m.isAddBlock && m.hasPath p) = true
    · rw [if_pos hb, if_pos hb]; simp
    · rw [if_neg hb, if_neg hb]; simp

/-- When no queued message is a replaceable delta at the new message's
path, the replacement step degenerates to an append. -/
theorem enqueueRepl_append_of_no_match (msg : ForwardMsg) :
    ∀ q : List ForwardMsg,
      (∀ a ∈ q, (a.isReplaceableDelta && (a.deltaPath? == msg.deltaPath?)) = false) →
      ForwardMsgQueue.enqueueRepl q msg = q ++ [msg] := by
  intro q
  induction q with
  | nil => intro _; rfl
  | cons a rest ih =>
    intro h
    have ha := h a (List.mem_cons_self a rest)
    simp only [ForwardMsgQueue.enqueueRepl, ha, Bool.false_eq_true, if_false,
      List.cons_append]
    rw [ih (fun x hx => h x (List.mem_cons_of_mem a hx))]

/-- When an earlier replaceable delta occupies the incoming replaceable
delta's path, the replacement happens exactly at that earlier message's
original queue position. -/
theorem enqueueRepl_replaces_in_place (suf : List ForwardMsg) (old msg : ForwardMsg)
    (hold : old.isReplaceableDelta = true)
    (hpath : old.deltaPath? = msg.deltaPath?) :
    ∀ pre : List ForwardMsg,
      (∀ a ∈ pre, (a.isReplaceableDelta && (a.deltaPath? == msg.deltaPath?)) = false) →
      ForwardMsgQueue.enqueueRepl (pre ++ old :: suf) msg = pre ++ msg :: suf := by
  intro pre
  induction pre with
  | nil =>
    intro _
    simp [ForwardMsgQueue.enqueueRepl, hold, hpath]
  | cons a rest ih =>
    intro hpre
    have ha := hpre a (List.mem_cons_self a rest)
    simp only [List.cons_append, ForwardMsgQueue.enqueueRepl, ha, Bool.false_eq_true,
      if_false]
    exact congrArg (a :: ·) (ih (fun x hx => hpre x (List.mem_cons_of_mem a hx)))

/-- If each DeltaPath carries at most one replaceable delta over the whole
sequence, no coalescing happens: the queue is the sequence itself. -/
theorem foldl_enqueue_of_unique_paths (msgs : List ForwardMsg) :
    ∀ q : List ForwardMsg,
      (∀ p, (replAt (q ++ msgs) p).length ≤ 1) →
      List.foldl ForwardMsgQueue.enqueue q msgs = q ++ msgs := by
  induction msgs with
  | nil => intro q _; simp
  | cons m rest ih =>
    intro q h
    have hq : ForwardMsgQueue.enqueue q m = q ++ [m] := by
      by_cases hrepl : m.isReplaceableDelta = true
      · obtain ⟨pm, hpm⟩ := Option.isSome_iff_exists.mp
          (deltaPath_isSome_of_repl m hrepl)
        have hmem : m ∈ replAt (q ++ m :: rest) pm := by
          rw [replAt_append, replAt_cons, hrepl]
          have : m.hasPath pm = true := by rw [hasPath_iff]; exact hpm
          rw [this]
          simp
        have h0 : replAt q pm = [] := by
          have hlen := h pm
          rw [replAt_append, replAt_cons, hrepl] at hlen
          have hmp : m.hasPath pm = true := by rw [hasPath_iff]; exact hpm
          rw [hmp] at hlen
          simp only [Bool.and_self, if_true, List.length_append,
            List.length_cons] at hlen
          exact List.length_eq_zero.mp (by omega)
        rw [ForwardMsgQueue.enqueue, if_pos hrepl]
        refine enqueueRepl_append_of_no_match m q (fun a hmem2 => ?_)
        by_cases harepl : a.isReplaceableDelta = true
        · by_cases hb : (a.deltaPath? == m.deltaPath?) = true
          · exfalso
            have hap : a.hasPath pm = true := by
              rw [hasPath_iff]
              rw [beq_iff_eq] at hb
              rw [hb]
              exact hpm
            have : a ∈ replAt q pm := by
              rw [replAt]
              refine List.mem_filter.mpr ⟨hmem2, ?_⟩
              rw [harepl, hap]
              rfl
            rw [h0] at this
            simp at this
          · simp only [Bool.and_eq_true, not_and] at hb ⊢
            cases hbb : (a.deltaPath? == m.deltaPath?) with
            | false => simp
            | true => exact absurd hbb hb
        · simp only [Bool.not_eq_true] at harepl
          simp [harepl]
      · rw [ForwardMsgQueue.enqueue, if_neg hrepl]
    rw [List.foldl_cons, hq,
      ih (q ++ [m]) (by intro p; have := h p; rwa [List.append_cons] at this)]
    simp

/-! ## Claim theorems -/

/-- C1 (amended): for every enqueue sequence and every DeltaPath, at most
one replaceable (non-container) delta at that path survives a flush, and
its payload is the most-recently-enqueued one — whether or not a
container-creation message occupies that path; container-creation
(add_block) messages are never replaced, so all of them survive the flush
in enqueue order (in particular an add_block and a later delta at the same
path are both retained); and when a replacement happens it happens at the
earlier delta's original queue position. -/
theorem delta_queue_coalescing_invariant (msgs : List ForwardMsg) (p : DeltaPath) :
    (replAt (ForwardMsgQueue.flush (ForwardMsgQueue.enqueueAll msgs)).1 p
        = (replAt msgs p).getLast?.toList) ∧
    (blocksAt (ForwardMsgQueue.flush (ForwardMsgQueue.enqueueAll msgs)).1 p
        = blocksAt msgs p) ∧
    (∀ (pre suf : List ForwardMsg) (old msg : ForwardMsg),
      msg.isReplaceableDelta = true → old.isReplaceableDelta = true →
      old.deltaPath? = msg.deltaPath? →
      (∀ a ∈ pre, (a.isReplaceableDelta && (a.deltaPath? == msg.deltaPath?)) = false) →
      ForwardMsgQueue.enqueue (pre ++ old :: suf) msg = pre ++ msg :: suf) := by
  refine ⟨replAt_enqueueAll msgs p, blocksAt_enqueueAll msgs p, ?_⟩
  intro pre suf old msg hmsg hold hpath hpre
  rw [ForwardMsgQueue.enqueue, if_pos hmsg]
  exact enqueueRepl_replaces_in_place suf old msg hold hpath pre hpre

/-- C1 counterexample: enqueue add_block, text1, text2 all at one path.
The container-creation message occupies the path, yet the two
non-container deltas sharing that path are not both retained: text1 is
replaced by text2. This refutes the claim that when an add_block message
occupies a path, both delta messages sharing it survive the flush in
enqueue order. -/
theorem delta_queue_coalescing_counterexample :
    ForwardMsgQueue.enqueueAll [ADD_BLOCK_MSG, TEXT_DELTA_MSG1, TEXT_DELTA_MSG2]
        = [ADD_BLOCK_MSG, TEXT_DELTA_MSG2] ∧
    ADD_BLOCK_MSG.isAddBlock = true ∧
    ADD_BLOCK_MSG.hasPath samplePath = true ∧
    TEXT_DELTA_MSG1.hasPath samplePath = true ∧
    TEXT_DELTA_MSG2.hasPath samplePath = true ∧
    TEXT_DELTA_MSG1
      ∉ ForwardMsgQueue.enqueueAll [ADD_BLOCK_MSG, TEXT_DELTA_MSG1, TEXT_DELTA_MSG2] := by
  decide

/-- Witness for C1: the replacement clause applied to the concrete queue of
the test test_replace_element: text2 replaces text1 in place. -/
theorem delta_queue_coalescing_invariant_witness :
    ForwardMsgQueue.enqueue [TEXT_DELTA_MSG1] TEXT_DELTA_MSG2 = [TEXT_DELTA_MSG2] := by
  have h := (delta_queue_coalescing_invariant [] samplePath).2.2 [] []
    TEXT_DELTA_MSG1 TEXT_DELTA_MSG2 (by decide) (by decide) (by decide)
    (by intro a ha; simp at ha)
  simpa using h

/-- Rewriting a script-finished message preserves lifecycle-ness. -/
theorem isLifecycleMsg_rewrite (m : ForwardMsg) :
    (ForwardMsgQueue.rewriteScriptFinished m).isLifecycleMsg = m.isLifecycleMsg := by
  cases m with
  | scriptFinished status => cases status <;> rfl
  | newElement p f pl => rfl
  | addBlock p f => rfl
  | newSession => rfl
  | sessionStatusChanged b => rfl
  | parentMessage s => rfl

/-- A delta-kind message is never a lifecycle message. -/
theorem not_lifecycle_of_isDeltaMsg (m : ForwardMsg) (h : m.isDeltaMsg = true) :
    m.isLifecycleMsg = false := by
  cases m <;> simp [ForwardMsg.isLifecycleMsg, ForwardMsg.isDeltaMsg,
    ForwardMsg.deltaPath?] at *

/-- Clearing with lifecycle retention and no fragment ids keeps exactly the
lifecycle messages, each passed through the script-finished rewrite. -/
theorem clear_no_fragment_ids (q : List ForwardMsg) :
    ForwardMsgQueue.clear q true [] =
      (q.filter (fun m => m.isLifecycleMsg)).map
        ForwardMsgQueue.rewriteScriptFinished := by
  simp [ForwardMsgQueue.clear]

/-- Clearing with lifecycle retention and a nonempty fragment id list is a
plain filter: lifecycle messages and deltas whose fragment id is not
listed are kept verbatim. -/
theorem clear_with_fragment_ids (q : List ForwardMsg) (f : String) (fids : List String) :
    ForwardMsgQueue.clear q true (f :: fids) =
      q.filter (fun m => m.isLifecycleMsg || !((f :: fids).contains m.fragmentId)) := by
  simp [ForwardMsgQueue.clear]

/-- C2 (amended): for every queue state, clear with retain_lifecycle_msgs
true keeps every lifecycle/control message and drops every ordinary delta
message it clears; an in-flight script-finished(successfully) message is
rewritten to the early/interrupted-for-rerun variant rather than dropped
only when fragment_ids_this_run is not supplied — when fragment ids are
supplied, lifecycle messages (including a successful script-finished
message) are retained verbatim. -/
theorem clear_retains_lifecycle_msgs (q : List ForwardMsg) :
    (∀ m ∈ q, m.isLifecycleMsg = true →
      ForwardMsgQueue.rewriteScriptFinished m ∈ ForwardMsgQueue.clear q true []) ∧
    (∀ m ∈ ForwardMsgQueue.clear q true [], m.isLifecycleMsg = true) ∧
    (∀ m ∈ q, m.isDeltaMsg = true → m ∉ ForwardMsgQueue.clear q true []) ∧
    (∀ (f : String) (fids : List String), ∀ m ∈ q, m.isLifecycleMsg = true →
      m ∈ ForwardMsgQueue.clear q true (f :: fids)) := by
  refine ⟨?_, ?_, ?_, ?_⟩
  · intro m hm hl
    rw [clear_no_fragment_ids]
    exact List.mem_map_of_mem _ (List.mem_filter.mpr ⟨hm, hl⟩)
  · intro m hm
    rw [clear_no_fragment_ids] at hm
    obtain ⟨m0, hm0, rfl⟩ := List.mem_map.mp hm
    rw [isLifecycleMsg_rewrite]
    exact (List.mem_filter.mp hm0).2
  · intro m hm hd hmem
    rw [clear_no_fragment_ids] at hmem
    obtain ⟨m0, hm0, heq⟩ := List.mem_map.mp hmem
    have hl0 := (List.mem_filter.mp hm0).2
    have : m.isLifecycleMsg = true := by rw [← heq, isLifecycleMsg_rewrite]; exact hl0
    rw [not_lifecycle_of_isDeltaMsg m hd] at this
    exact Bool.false_ne_true this
  · intro f fids m hm hl
    rw [clear_with_fragment_ids]
    refine List.mem_filter.mpr ⟨hm, ?_⟩
    rw [hl]
    rfl

/-- C2 counterexample: with retain_lifecycle_msgs true and fragment ids
supplied, an in-flight script-finished(successfully) message is retained
verbatim — it is not rewritten to the early/interrupted-for-rerun variant,
refuting the claim's "whether or not fragment_ids_this_run is also
supplied". -/
theorem clear_rewrite_counterexample :
    ForwardMsgQueue.clear [SCRIPT_FINISHED_MSG] true ["fragA"]
        = [SCRIPT_FINISHED_MSG] ∧
    ForwardMsg.scriptFinished .FINISHED_EARLY_FOR_RERUN
      ∉ ForwardMsgQueue.clear [SCRIPT_FINISHED_MSG] true ["fragA"] := by
  decide

/-- Witness for C2: in the test_clear_retain_lifecycle_msgs queue the
script-finished message is kept (rewritten) and the text delta dropped. -/
theorem clear_retains_lifecycle_msgs_witness :
    ForwardMsgQueue.rewriteScriptFinished SCRIPT_FINISHED_MSG
      ∈ ForwardMsgQueue.clear [TEXT_DELTA_MSG1, SCRIPT_FINISHED_MSG] true [] ∧
    TEXT_DELTA_MSG1
      ∉ ForwardMsgQueue.clear [TEXT_DELTA_MSG1, SCRIPT_FINISHED_MSG] true [] := by
  constructor
  · exact (clear_retains_lifecycle_msgs [TEXT_DELTA_MSG1, SCRIPT_FINISHED_MSG]).1
      SCRIPT_FINISHED_MSG (by decide) (by decide)
  · exact (clear_retains_lifecycle_msgs [TEXT_DELTA_MSG1, SCRIPT_FINISHED_MSG]).2.2.1
      TEXT_DELTA_MSG1 (by decide) (by decide)

/-- A lifecycle message is never a delta-kind message. -/
theorem isDeltaMsg_eq_false_of_lifecycle (m : ForwardMsg) (h : m.isLifecycleMsg = true) :
    m.isDeltaMsg = false := by
  cases m <;> simp [ForwardMsg.isLifecycleMsg, ForwardMsg.isDeltaMsg,
    ForwardMsg.deltaPath?] at *

/-- Pointwise form of the fragment-scoped keep predicate: with a singleton
fragment id list, a message is kept iff it is not a delta tagged with that
id. -/
theorem clear_keep_pred_singleton (A : String) (m : ForwardMsg) :
    (m.isLifecycleMsg || !([A].contains m.fragmentId))
      = !(m.isDeltaMsg && m.fragmentId == A) := by
  cases m <;>
    simp [ForwardMsg.isLifecycleMsg, ForwardMsg.isDeltaMsg, ForwardMsg.deltaPath?,
      ForwardMsg.fragmentId, List.contains_cons]
  all_goals
    rw [Bool.eq_iff_iff]
    simp only [decide_eq_true_eq, beq_iff_eq]

/-- C3: for every queue, clearing with retain_lifecycle_msgs true and
fragment_ids_this_run = {A} removes exactly the delta messages tagged A:
deltas tagged with another fragment id, untagged deltas and all lifecycle
messages remain in the queue, in their original relative order. -/
theorem clear_fragment_scoped (q : List ForwardMsg) (A : String) :
    (ForwardMsgQueue.clear q true [A]
        = q.filter (fun m => !(m.isDeltaMsg && m.fragmentId == A))) ∧
    (∀ m ∈ q, m.isDeltaMsg = true → m.fragmentId = A →
      m ∉ ForwardMsgQueue.clear q true [A]) ∧
    (∀ m ∈ q, m.isDeltaMsg = true → m.fragmentId ≠ A →
      m ∈ ForwardMsgQueue.clear q true [A]) ∧
    (∀ m ∈ q, m.isLifecycleMsg = true → m ∈ ForwardMsgQueue.clear q true [A]) ∧
    (ForwardMsgQueue.clear q true [A]).Sublist q := by
  have hEq : ForwardMsgQueue.clear q true [A]
      = q.filter (fun m => !(m.isDeltaMsg && m.fragmentId == A)) := by
    rw [clear_with_fragment_ids q A []]
    exact List.filter_congr (fun m _ => clear_keep_pred_singleton A m)
  refine ⟨hEq, ?_, ?_, ?_, ?_⟩
  · intro m hm hd hf hmem
    rw [hEq] at hmem
    have := (List.mem_filter.mp hmem).2
    rw [hd, hf] at this
    simp at this
  · intro m hm hd hf
    rw [hEq]
    refine List.mem_filter.mpr ⟨hm, ?_⟩
    have : (m.fragmentId == A) = false := beq_eq_false_iff_ne.mpr hf
    rw [this]
    simp
  · intro m hm hl
    rw [hEq]
    refine List.mem_filter.mpr ⟨hm, ?_⟩
    rw [isDeltaMsg_eq_false_of_lifecycle m hl]
    simp
  · rw [hEq]
    exact List.filter_sublist q

/-- Witness for C3: the concrete queue of the fragment-scoped clear test:
the current fragment's delta is dropped; the unrelated fragment's delta,
the untagged delta and the script-finished lifecycle message remain. -/
theorem clear_fragment_scoped_witness :
    CURRENT_FRAGMENT_DELTA
      ∉ ForwardMsgQueue.clear
          [NEW_SESSION_MSG, CURRENT_FRAGMENT_DELTA, UNRELATED_FRAGMENT_DELTA,
            UNTAGGED_DELTA, SCRIPT_FINISHED_MSG] true ["current_fragment_id1"] ∧
    UNRELATED_FRAGMENT_DELTA
      ∈ ForwardMsgQueue.clear
          [NEW_SESSION_MSG, CURRENT_FRAGMENT_DELTA, UNRELATED_FRAGMENT_DELTA,
            UNTAGGED_DELTA, SCRIPT_FINISHED_MSG] true ["current_fragment_id1"] ∧
    UNTAGGED_DELTA
      ∈ ForwardMsgQueue.clear
          [NEW_SESSION_MSG, CURRENT_FRAGMENT_DELTA, UNRELATED_FRAGMENT_DELTA,
            UNTAGGED_DELTA, SCRIPT_FINISHED_MSG] true ["current_fragment_id1"] ∧
    SCRIPT_FINISHED_MSG
      ∈ ForwardMsgQueue.clear
          [NEW_SESSION_MSG, CURRENT_FRAGMENT_DELTA, UNRELATED_FRAGMENT_DELTA,
            UNTAGGED_DELTA, SCRIPT_FINISHED_MSG] true ["current_fragment_id1"] := by
  refine ⟨?_, ?_, ?_, ?_⟩
  · exact (clear_fragment_scoped
      [NEW_SESSION_MSG, CURRENT_FRAGMENT_DELTA, UNRELATED_FRAGMENT_DELTA,
        UNTAGGED_DELTA, SCRIPT_FINISHED_MSG] "current_fragment_id1").2.1
      CURRENT_FRAGMENT_DELTA (by decide) (by decide) (by decide)
  · exact (clear_fragment_scoped
      [NEW_SESSION_MSG, CURRENT_FRAGMENT_DELTA, UNRELATED_FRAGMENT_DELTA,
        UNTAGGED_DELTA, SCRIPT_FINISHED_MSG] "current_fragment_id1").2.2.1
      UNRELATED_FRAGMENT_DELTA (by decide) (by decide) (by decide)
  · exact (clear_fragment_scoped
      [NEW_SESSION_MSG, CURRENT_FRAGMENT_DELTA, UNRELATED_FRAGMENT_DELTA,
        UNTAGGED_DELTA, SCRIPT_FINISHED_MSG] "current_fragment_id1").2.2.1
      UNTAGGED_DELTA (by decide) (by decide) (by decide)
  · exact (clear_fragment_scoped
      [NEW_SESSION_MSG, CURRENT_FRAGMENT_DELTA, UNRELATED_FRAGMENT_DELTA,
        UNTAGGED_DELTA, SCRIPT_FINISHED_MSG] "current_fragment_id1").2.2.2.1
      SCRIPT_FINISHED_MSG (by decide) (by decide)

/-- C4: while a script is executing, every call that would enqueue a
ForwardMsg performs the cooperative interrupt check exactly once; a
pending STOP makes the enqueue raise the dedicated stop signal and a
pending RERUN the rerun signal carrying its data — in both cases no
message is added to the queue; with no pending request the message is
enqueued. -/
theorem enqueue_checks_pending_requests (s : RunnerState) (msg : ForwardMsg) :
    (s.requests = .STOP →
      (ScriptRunner.enqueue_forward_msg s msg).1 = some .StopException ∧
      (ScriptRunner.enqueue_forward_msg s msg).2.queue = s.queue) ∧
    (∀ d, s.requests = .RERUN d →
      (ScriptRunner.enqueue_forward_msg s msg).1 = some (.RerunException d) ∧
      (ScriptRunner.enqueue_forward_msg s msg).2.queue = s.queue) ∧
    (s.requests = .CONTINUE →
      (ScriptRunner.enqueue_forward_msg s msg).1 = none ∧
      (ScriptRunner.enqueue_forward_msg s msg).2.queue
        = ForwardMsgQueue.enqueue s.queue msg) ∧
    (ScriptRunner.enqueue_forward_msg s msg).2.controlChecks
      = s.controlChecks + 1 := by
  obtain ⟨req, q, n⟩ := s
  refine ⟨?_, ?_, ?_, ?_⟩ <;> cases req <;>
    simp [ScriptRunner.enqueue_forward_msg,
      ScriptRunner.maybe_handle_execution_control_request,
      ScriptRequests.on_scriptrunner_yield]

/-- Witness for C4: with a pending stop the enqueue raises the stop signal
and adds nothing; with no pending request the message lands in the queue. -/
theorem enqueue_checks_pending_requests_witness :
    (ScriptRunner.enqueue_forward_msg ⟨.STOP, [], 0⟩ TEXT_DELTA_MSG1).1
        = some .StopException ∧
    (ScriptRunner.enqueue_forward_msg ⟨.STOP, [], 0⟩ TEXT_DELTA_MSG1).2.queue = [] ∧
    (ScriptRunner.enqueue_forward_msg ⟨.CONTINUE, [], 0⟩ TEXT_DELTA_MSG1).2.queue
        = [TEXT_DELTA_MSG1] := by
  refine ⟨?_, ?_, ?_⟩
  · exact ((enqueue_checks_pending_requests ⟨.STOP, [], 0⟩ TEXT_DELTA_MSG1).1 rfl).1
  · exact ((enqueue_checks_pending_requests ⟨.STOP, [], 0⟩ TEXT_DELTA_MSG1).1 rfl).2
  · have h :=
      ((enqueue_checks_pending_requests ⟨.CONTINUE, [], 0⟩ TEXT_DELTA_MSG1).2.2.1 rfl).2
    rw [h]
    decide

/-- The events of one run attempt are SCRIPT_STARTED, a block of
ENQUEUE_FORWARD_MSG data events, and a final terminal event. -/
theorem attemptEvents_shape (a : RunAttempt) :
    ∃ n t, attemptEvents a
        = ScriptRunnerEvent.SCRIPT_STARTED
            :: (List.replicate n ScriptRunnerEvent.ENQUEUE_FORWARD_MSG ++ [t])
      ∧ t.isTerminalEvent = true := by
  obtain ⟨frag, beh⟩ := a
  cases beh with
  | compileError =>
    exact ⟨0, .SCRIPT_STOPPED_WITH_COMPILE_ERROR, rfl, rfl⟩
  | completes n =>
    refine ⟨n, successEvent frag, rfl, ?_⟩
    cases frag <;> rfl
  | interruptedForRerun n =>
    exact ⟨n, .SCRIPT_STOPPED_FOR_RERUN, rfl, rfl⟩
  | interruptedByStop n =>
    refine ⟨n, successEvent frag, rfl, ?_⟩
    cases frag <;> rfl

/-- A replicated non-matching event contributes nothing to a countP. -/
theorem countP_replicate_zero (p : ScriptRunnerEvent → Bool) (e : ScriptRunnerEvent)
    (h : p e = false) (n : Nat) : (List.replicate n e).countP p = 0 := by
  induction n with
  | zero => rfl
  | succ k ih => simp [List.replicate_succ, List.countP_cons, ih, h]

/-- No run attempt ever emits SHUTDOWN among its own events. -/
theorem shutdown_not_in_attemptEvents (a : RunAttempt) :
    (attemptEvents a).countP (fun e => e == ScriptRunnerEvent.SHUTDOWN) = 0 := by
  obtain ⟨n, t, hshape, hterm⟩ := attemptEvents_shape a
  rw [hshape, List.countP_cons, List.countP_append,
    countP_replicate_zero _ _ rfl n, List.countP_cons]
  have ht : (t == ScriptRunnerEvent.SHUTDOWN) = false := by
    cases t <;> simp_all [ScriptRunnerEvent.isTerminalEvent]
  simp [ht]

/-- The engine trace never is empty: it at least ends in SHUTDOWN. -/
theorem engineTrace_getLast (attempts : List RunAttempt) :
    (engineTrace attempts).getLast? = some ScriptRunnerEvent.SHUTDOWN := by
  induction attempts with
  | nil => rfl
  | cons a rest ih => simp [engineTrace, List.getLast?_append, ih]

/-- C5: for every sequence of run attempts the engine services, each
attempt's event segment starts with SCRIPT_STARTED and contains exactly
one terminal event, which is its last event; the whole trace ends with
SHUTDOWN, and SHUTDOWN occurs exactly once (so no second terminal trace
element follows the teardown). -/
theorem one_terminal_event_per_attempt (attempts : List RunAttempt) :
    ((engineTrace attempts).getLast? = some ScriptRunnerEvent.SHUTDOWN) ∧
    ((engineTrace attempts).countP (fun e => e == ScriptRunnerEvent.SHUTDOWN) = 1) ∧
    (∀ a ∈ attempts,
      (attemptEvents a).head? = some ScriptRunnerEvent.SCRIPT_STARTED ∧
      (attemptEvents a).countP ScriptRunnerEvent.isTerminalEvent = 1 ∧
      (∃ t, t.isTerminalEvent = true ∧ (attemptEvents a).getLast? = some t)) := by
  refine ⟨engineTrace_getLast attempts, ?_, ?_⟩
  · induction attempts with
    | nil => rfl
    | cons a rest ih =>
      simp only [engineTrace, List.countP_append, shutdown_not_in_attemptEvents, ih]
  · intro a ha
    obtain ⟨n, t, hshape, hterm⟩ := attemptEvents_shape a
    refine ⟨by rw [hshape]; rfl, ?_, ⟨t, hterm, ?_⟩⟩
    · rw [hshape, List.countP_cons, List.countP_append,
        countP_replicate_zero _ _ rfl n, List.countP_cons]
      simp [hterm, show ScriptRunnerEvent.isTerminalEvent .SCRIPT_STARTED = false from rfl]
    · rw [hshape, ← List.cons_append, List.getLast?_concat]

/-- Witness for C5: the trace of the test test_run_script — one successful
full run then shutdown. -/
theorem one_terminal_event_per_attempt_witness :
    engineTrace [⟨false, .completes 1⟩]
        = [ScriptRunnerEvent.SCRIPT_STARTED, ScriptRunnerEvent.ENQUEUE_FORWARD_MSG,
            ScriptRunnerEvent.SCRIPT_STOPPED_WITH_SUCCESS, ScriptRunnerEvent.SHUTDOWN] ∧
    (attemptEvents ⟨false, .completes 1⟩).countP ScriptRunnerEvent.isTerminalEvent = 1 ∧
    (engineTrace [⟨false, .completes 1⟩]).getLast? = some ScriptRunnerEvent.SHUTDOWN := by
  refine ⟨by decide, ?_, ?_⟩
  · exact ((one_terminal_event_per_attempt [⟨false, .completes 1⟩]).2.2
      ⟨false, .completes 1⟩ (by decide)).2.1
  · exact (one_terminal_event_per_attempt [⟨false, .completes 1⟩]).1

/-- A linear script emits one delta per body. -/
theorem scriptDeltasFrom_length (bodies : List String) :
    ∀ i : Nat, (scriptDeltasFrom i bodies).length = bodies.length := by
  induction bodies with
  | nil => intro i; rfl
  | cons b rest ih => intro i; simp [scriptDeltasFrom, ih (i + 1)]

/-- Each path carries at most one of a linear script's deltas, and any
delta surviving at path p pins p to one of the script's positions. -/
theorem replAt_scriptDeltasFrom (bodies : List String) :
    ∀ (i : Nat) (p : DeltaPath),
      (replAt (scriptDeltasFrom i bodies) p).length ≤ 1 ∧
      (∀ m ∈ replAt (scriptDeltasFrom i bodies) p,
        ∃ j, i ≤ j ∧ j < i + bodies.length ∧ p = ⟨0, [j]⟩) := by
  induction bodies with
  | nil =>
    intro i p
    refine ⟨by simp [scriptDeltasFrom, replAt_nil], ?_⟩
    intro m hm
    simp [scriptDeltasFrom, replAt_nil] at hm
  | cons b rest ih =>
    intro i p
    rw [scriptDeltasFrom]
    by_cases hp : p = ⟨0, [i]⟩
    · have hhead : ((ForwardMsg.newElement ⟨0, [i]⟩ "" (.textElement b)).isReplaceableDelta
          && (ForwardMsg.newElement ⟨0, [i]⟩ "" (.textElement b)).hasPath p) = true := by
        rw [hp]
        simp [ForwardMsg.isReplaceableDelta, ForwardMsg.hasPath, ForwardMsg.deltaPath?]
      have hrest0 : replAt (scriptDeltasFrom (i + 1) rest) p = [] := by
        cases hq : replAt (scriptDeltasFrom (i + 1) rest) p with
        | nil => rfl
        | cons x xs =>
          obtain ⟨j, hij, hlt, hpj⟩ := (ih (i + 1) p).2 x
            (by rw [hq]; exact List.mem_cons_self x xs)
          rw [hp] at hpj
          have hind : ([i] : List Nat) = [j] := congrArg DeltaPath.indices hpj
          have : i = j := by simpa using hind
          omega
      rw [replAt_cons, if_pos hhead, hrest0]
      refine ⟨by simp, ?_⟩
      intro m hm
      have : m = ForwardMsg.newElement ⟨0, [i]⟩ "" (.textElement b) := by
        simpa using hm
      exact ⟨i, le_refl i, by simp, hp⟩
    · have hhead : ((ForwardMsg.newElement ⟨0, [i]⟩ "" (.textElement b)).isReplaceableDelta
          && (ForwardMsg.newElement ⟨0, [i]⟩ "" (.textElement b)).hasPath p) = false := by
        have : (ForwardMsg.newElement ⟨0, [i]⟩ "" (.textElement b)).hasPath p = false := by
          rw [ForwardMsg.hasPath, ForwardMsg.deltaPath?]
          simp
          intro hcontra
          exact hp hcontra.symm
        simp [this]
      rw [replAt_cons, if_neg (by rw [hhead]; exact Bool.false_ne_true)]
      refine ⟨(ih (i + 1) p).1, ?_⟩
      intro m hm
      obtain ⟨j, hij, hlt, hpj⟩ := (ih (i + 1) p).2 m hm
      exact ⟨j, by omega, by simp [List.length_cons]; omega, hpj⟩

/-- The messages of one full-script run live at pairwise distinct paths:
each path holds at most one of them. -/
theorem replAt_runFullScript (sc : UserScript) (p : DeltaPath) :
    (replAt (runFullScript sc).1 p).length ≤ 1 := by
  have hsd := replAt_scriptDeltasFrom sc.bodies 0 p
  simp only [runFullScript]
  by_cases hr : sc.raisesAfter = true
  · rw [if_pos hr, replAt_append]
    by_cases hp : p = ⟨0, [sc.bodies.length]⟩
    · have h0 : replAt (scriptDeltasFrom 0 sc.bodies) p = [] := by
        cases hq : replAt (scriptDeltasFrom 0 sc.bodies) p with
        | nil => rfl
        | cons x xs =>
          obtain ⟨j, hij, hlt, hpj⟩ := hsd.2 x (by rw [hq]; exact List.mem_cons_self x xs)
          rw [hp] at hpj
          have hind : ([sc.bodies.length] : List Nat) = [j] :=
            congrArg DeltaPath.indices hpj
          have : sc.bodies.length = j := by simpa using hind
          omega
      rw [h0, List.nil_append]
      rw [replAt_cons, replAt_nil]
      by_cases hb : ((exceptionDelta sc.bodies.length).isReplaceableDelta
          && (exceptionDelta sc.bodies.length).hasPath p) = true
      · rw [if_pos hb]; simp
      · rw [if_neg hb]; simp
    · have hexc : replAt [exceptionDelta sc.bodies.length] p = [] := by
        rw [replAt_cons, replAt_nil, if_neg ?_]
        have : (exceptionDelta sc.bodies.length).hasPath p = false := by
          rw [exceptionDelta, ForwardMsg.hasPath, ForwardMsg.deltaPath?]
          simp
          intro hcontra
          exact hp hcontra.symm
        rw [this, Bool.and_false]
        exact Bool.false_ne_true
      rw [hexc, List.append_nil]
      exact hsd.1
  · rw [if_neg hr]
    exact hsd.1

/-- C6: for every full-script run whose user code raises an uncaught
exception after emitting its deltas: the run still terminates with
SCRIPT_STOPPED_WITH_SUCCESS; the produced ForwardMsgs are exactly the
already-emitted deltas followed by one rendered exception element at the
current tree position (sibling index = number of emitted deltas); the
queue retains all of them without coalescing (their paths are distinct),
so the exception element is the last queued message and nothing follows
it; the total count is the number of emitted deltas plus one. -/
theorem uncaught_exception_reports_success (sc : UserScript)
    (h : sc.raisesAfter = true) :
    ((runFullScript sc).2 = ScriptRunnerEvent.SCRIPT_STOPPED_WITH_SUCCESS) ∧
    ((runFullScript sc).1
        = scriptDeltasFrom 0 sc.bodies ++ [exceptionDelta sc.bodies.length]) ∧
    (ForwardMsgQueue.enqueueAll (runFullScript sc).1 = (runFullScript sc).1) ∧
    ((ForwardMsgQueue.enqueueAll (runFullScript sc).1).getLast?
        = some (exceptionDelta sc.bodies.length)) ∧
    ((ForwardMsgQueue.enqueueAll (runFullScript sc).1).length
        = sc.bodies.length + 1) := by
  have hmsgs : (runFullScript sc).1
      = scriptDeltasFrom 0 sc.bodies ++ [exceptionDelta sc.bodies.length] := by
    simp only [runFullScript, if_pos h]
  have hqueue : ForwardMsgQueue.enqueueAll (runFullScript sc).1 = (runFullScript sc).1 := by
    rw [ForwardMsgQueue.enqueueAll]
    have := foldl_enqueue_of_unique_paths (runFullScript sc).1 []
      (fun p => by rw [List.nil_append]; exact replAt_runFullScript sc p)
    rw [this, List.nil_append]
  refine ⟨?_, hmsgs, hqueue, ?_, ?_⟩
  · simp only [runFullScript, if_pos h]
  · rw [hqueue, hmsgs, List.getLast?_concat]
  · rw [hqueue, hmsgs, List.length_append, scriptDeltasFrom_length sc.bodies 0]
    rfl

/-- Witness for C6: a script that emits one text delta and then raises
produces exactly two queued ForwardMsgs — the text delta, then the
exception element — and reports success. -/
theorem uncaught_exception_reports_success_witness :
    ForwardMsgQueue.enqueueAll (runFullScript ⟨["complete!"], [], true⟩).1
        = [ForwardMsg.newElement ⟨0, [0]⟩ "" (.textElement "complete!"),
            exceptionDelta 1] ∧
    (runFullScript ⟨["complete!"], [], true⟩).2
        = ScriptRunnerEvent.SCRIPT_STOPPED_WITH_SUCCESS ∧
    (ForwardMsgQueue.enqueueAll (runFullScript ⟨["complete!"], [], true⟩).1).length
        = 2 := by
  refine ⟨?_, ?_, ?_⟩
  · have h := (uncaught_exception_reports_success ⟨["complete!"], [], true⟩ rfl).2.2.1
    rw [h]
    decide
  · exact (uncaught_exception_reports_success ⟨["complete!"], [], true⟩ rfl).1
  · exact (uncaught_exception_reports_success ⟨["complete!"], [], true⟩ rfl).2.2.2.2

/-- C7: a run whose script file is missing or fails to compile reports the
terminal event SCRIPT_STOPPED_WITH_COMPILE_ERROR, emits no
ENQUEUE_FORWARD_MSG data event (no user code executes), and produces no
delta ForwardMsg — the queue stays empty, so no partial UI is shown. -/
theorem compile_error_produces_no_ui (src : ScriptSource)
    (h : src = .missingFile ∨ src = .syntaxError) :
    ((runScriptAttempt src).1
        = [ScriptRunnerEvent.SCRIPT_STARTED,
            ScriptRunnerEvent.SCRIPT_STOPPED_WITH_COMPILE_ERROR]) ∧
    ((runScriptAttempt src).1.countP
        (fun e => e == ScriptRunnerEvent.ENQUEUE_FORWARD_MSG) = 0) ∧
    ((runScriptAttempt src).2 = []) ∧
    (ForwardMsgQueue.enqueueAll (runScriptAttempt src).2 = []) := by
  rcases h with h | h <;> subst h <;> exact ⟨rfl, rfl, rfl, rfl⟩

/-- Witness for C7: the missing-script run of test_missing_script. -/
theorem compile_error_produces_no_ui_witness :
    (runScriptAttempt .missingFile).1
        = [ScriptRunnerEvent.SCRIPT_STARTED,
            ScriptRunnerEvent.SCRIPT_STOPPED_WITH_COMPILE_ERROR] ∧
    (runScriptAttempt .missingFile).2 = [] :=
  ⟨(compile_error_produces_no_ui .missingFile (Or.inl rfl)).1,
    (compile_error_produces_no_ui .missingFile (Or.inl rfl)).2.2.1⟩

/-- C8: when every fragment id of a rerun batch is registered, the engine
invokes the fragments in exactly the order given; a fragment that raises
has its exception caught per-fragment and rendered (it is recorded in
renderedErrors) without preventing any subsequent fragment from being
invoked; no lookup error occurs and the batch terminates with
FRAGMENT_STOPPED_WITH_SUCCESS. -/
theorem fragment_batch_invokes_in_order (reg : FragmentStorage) (queue : List String)
    (h : ∀ fid ∈ queue, (FragmentStorage.get reg fid).isSome = true) :
    ((runFragmentQueue reg queue).invoked = queue) ∧
    ((runFragmentQueue reg queue).lookupError = none) ∧
    ((runFragmentQueue reg queue).renderedErrors
        = queue.filter (fun fid =>
            match FragmentStorage.get reg fid with
            | some b => b.raisesError
            | none => false)) ∧
    ((runFragmentBatch reg queue).2
        = [ScriptRunnerEvent.SCRIPT_STARTED,
            ScriptRunnerEvent.FRAGMENT_STOPPED_WITH_SUCCESS]) := by
  have hmain : ∀ qs : List String,
      (∀ fid ∈ qs, (FragmentStorage.get reg fid).isSome = true) →
      ((runFragmentQueue reg qs).invoked = qs) ∧
      ((runFragmentQueue reg qs).lookupError = none) ∧
      ((runFragmentQueue reg qs).renderedErrors
          = qs.filter (fun fid =>
              match FragmentStorage.get reg fid with
              | some b => b.raisesError
              | none => false)) := by
    intro qs
    induction qs with
    | nil => intro _; exact ⟨rfl, rfl, rfl⟩
    | cons fid rest ih =>
      intro hq
      obtain ⟨b, hb⟩ := Option.isSome_iff_exists.mp (hq fid (List.mem_cons_self fid rest))
      have ihr := ih (fun x hx => hq x (List.mem_cons_of_mem fid hx))
      refine ⟨?_, ?_, ?_⟩
      · simp [runFragmentQueue, hb, ihr.1]
      · simp [runFragmentQueue, hb, ihr.2.1]
      · rw [List.filter_cons]
        simp only [runFragmentQueue, hb, ihr.2.2]
        cases hrb : b.raisesError <;> simp [hrb]
  have hm := hmain queue h
  refine ⟨hm.1, hm.2.1, hm.2.2, ?_⟩
  simp [runFragmentBatch, hm.2.1]

/-- Witness for C8: the batch of
test_run_multiple_fragments_even_if_one_raised_an_exception: the first
fragment raises, yet all three are invoked in order and the batch reports
fragment success. -/
theorem fragment_batch_invokes_in_order_witness :
    ((runFragmentQueue
        [("my_fragment1", ⟨[], true⟩), ("my_fragment2", ⟨[], false⟩),
          ("my_fragment3", ⟨[], false⟩)]
        ["my_fragment1", "my_fragment2", "my_fragment3"]).invoked
      = ["my_fragment1", "my_fragment2", "my_fragment3"]) ∧
    ((runFragmentQueue
        [("my_fragment1", ⟨[], true⟩), ("my_fragment2", ⟨[], false⟩),
          ("my_fragment3", ⟨[], false⟩)]
        ["my_fragment1", "my_fragment2", "my_fragment3"]).renderedErrors
      = ["my_fragment1"]) ∧
    ((runFragmentBatch
        [("my_fragment1", ⟨[], true⟩), ("my_fragment2", ⟨[], false⟩),
          ("my_fragment3", ⟨[], false⟩)]
        ["my_fragment1", "my_fragment2", "my_fragment3"]).2
      = [ScriptRunnerEvent.SCRIPT_STARTED,
          ScriptRunnerEvent.FRAGMENT_STOPPED_WITH_SUCCESS]) := by
  refine ⟨?_, ?_, ?_⟩
  · exact (fragment_batch_invokes_in_order
      [("my_fragment1", ⟨[], true⟩), ("my_fragment2", ⟨[], false⟩),
        ("my_fragment3", ⟨[], false⟩)]
      ["my_fragment1", "my_fragment2", "my_fragment3"] (by decide)).1
  · have h := (fragment_batch_invokes_in_order
      [("my_fragment1", ⟨[], true⟩), ("my_fragment2", ⟨[], false⟩),
        ("my_fragment3", ⟨[], false⟩)]
      ["my_fragment1", "my_fragment2", "my_fragment3"] (by decide)).2.2.1
    rw [h]
    decide
  · exact (fragment_batch_invokes_in_order
      [("my_fragment1", ⟨[], true⟩), ("my_fragment2", ⟨[], false⟩),
        ("my_fragment3", ⟨[], false⟩)]
      ["my_fragment1", "my_fragment2", "my_fragment3"] (by decide)).2.2.2

/-- C9: any WidgetID present in the Widget State Store at the start of a
full-script run that the run completes without re-registering is removed
by the prune pass, and a subsequent lookup of that id raises a KeyError
rather than returning a stale or default value. -/
theorem prune_removes_unregistered_widgets (store : WidgetStore) (sc : UserScript)
    (wid : String) (hnot : wid ∉ sc.widgetIds) :
    (SessionState.lookupWidgetValue (storeAfterFullRun store sc) wid = none) ∧
    (SessionState.getWidgetValue (storeAfterFullRun store sc) wid
        = .error (.KeyError wid)) := by
  have hfind : (storeAfterFullRun store sc).find? (fun e => e.1 == wid) = none := by
    rw [List.find?_eq_none]
    intro e he hcontra
    have hkey : e.1 = wid := by simpa using hcontra
    have hmemf := List.mem_filter.mp he
    have hcont : sc.widgetIds.contains e.1 = true := hmemf.2
    have : e.1 ∈ sc.widgetIds := by
      have := List.elem_iff.mp hcont
      exact this
    rw [hkey] at this
    exact hnot this
  have hlookup : SessionState.lookupWidgetValue (storeAfterFullRun store sc) wid = none := by
    rw [SessionState.lookupWidgetValue, hfind]
    rfl
  refine ⟨hlookup, ?_⟩
  rw [SessionState.getWidgetValue, hlookup]

/-- Witness for C9: the scenario of test_remove_nonexistent_elements: a
widget id stored before the run but never re-registered is pruned and a
later lookup raises KeyError. -/
theorem prune_removes_unregistered_widgets_witness :
    SessionState.getWidgetValue
        (storeAfterFullRun [("nonexistent_widget_id", .stringValue "streamlit")]
          ⟨["complete!"], ["checkbox-id"], false⟩) "nonexistent_widget_id"
      = .error (.KeyError "nonexistent_widget_id") :=
  (prune_removes_unregistered_widgets
    [("nonexistent_widget_id", .stringValue "streamlit")]
    ⟨["complete!"], ["checkbox-id"], false⟩ "nonexistent_widget_id" (by decide)).2

/-- Looking up in a store splits on its head entry. -/
theorem lookupWidgetValue_cons (e : String × WidgetValue) (rest : WidgetStore)
    (wid : String) :
    SessionState.lookupWidgetValue (e :: rest) wid
      = if e.1 == wid then some e.2 else SessionState.lookupWidgetValue rest wid := by
  rw [SessionState.lookupWidgetValue, List.find?_cons]
  cases he : (e.1 == wid) <;> simp [he, SessionState.lookupWidgetValue]

/-- Resetting triggers rewrites each stored value pointwise: trigger-type
values become `triggerValue false`, other values are untouched. -/
theorem lookup_resetTriggers (store : WidgetStore) (wid : String) :
    SessionState.lookupWidgetValue (SessionState.resetTriggers store) wid
      = (SessionState.lookupWidgetValue store wid).map
          (fun v => if v.isTriggerValue then WidgetValue.triggerValue false else v) := by
  induction store with
  | nil => rfl
  | cons e rest ih =>
    have hreset : SessionState.resetTriggers (e :: rest)
        = (if e.2.isTriggerValue then (e.1, WidgetValue.triggerValue false) else e)
            :: SessionState.resetTriggers rest := rfl
    rw [hreset]
    cases ht : e.2.isTriggerValue with
    | true =>
      rw [if_pos rfl, lookupWidgetValue_cons, lookupWidgetValue_cons]
      cases he : (e.1 == wid) with
      | true => simp [he, ht]
      | false => simp [he, ih]
    | false =>
      rw [if_neg Bool.false_ne_true, lookupWidgetValue_cons, lookupWidgetValue_cons]
      cases he : (e.1 == wid) with
      | true => simp [he, ht]
      | false => simp [he, ih]

/-- C10: after a full rerun requested with no widget-state updates, every
trigger-type widget (e.g. a button previously reporting true) reverts to
its resting value false, while every non-trigger widget (checkbox, text
area, radio) retains the value stored from the previous run's client
updates. -/
theorem trigger_widgets_reset_on_rerun (store : WidgetStore)
    (ups : List (String × WidgetValue)) (wid : String) :
    (∀ b, SessionState.lookupWidgetValue (applyClientUpdates store ups) wid
        = some (WidgetValue.triggerValue b) →
      SessionState.lookupWidgetValue
          (applyClientUpdates (runWithUpdates store ups) []) wid
        = some (WidgetValue.triggerValue false)) ∧
    (∀ v, SessionState.lookupWidgetValue (applyClientUpdates store ups) wid = some v →
      v.isTriggerValue = false →
      SessionState.lookupWidgetValue
          (applyClientUpdates (runWithUpdates store ups) []) wid = some v) := by
  have happly : applyClientUpdates (runWithUpdates store ups) []
      = runWithUpdates store ups := rfl
  constructor
  · intro b hb
    rw [happly, runWithUpdates, lookup_resetTriggers, hb]
    rfl
  · intro v hv hnt
    rw [happly, runWithUpdates, lookup_resetTriggers, hv]
    simp [hnt]

/-- Witness for C10: the scenario of test_widgets: after a run whose
client updates set checkbox true, text area "matey!", radio 2 and button
trigger true, a rerun with no updates reads the button as false and the
other widgets unchanged. -/
theorem trigger_widgets_reset_on_rerun_witness :
    SessionState.lookupWidgetValue
        (applyClientUpdates
          (runWithUpdates []
            [("checkbox", .boolValue true), ("text_area", .stringValue "matey!"),
              ("radio", .intValue 2), ("button", .triggerValue true)]) [])
        "button" = some (WidgetValue.triggerValue false) ∧
    SessionState.lookupWidgetValue
        (applyClientUpdates
          (runWithUpdates []
            [("checkbox", .boolValue true), ("text_area", .stringValue "matey!"),
              ("radio", .intValue 2), ("button", .triggerValue true)]) [])
        "checkbox" = some (WidgetValue.boolValue true) := by
  constructor
  · exact (trigger_widgets_reset_on_rerun []
      [("checkbox", .boolValue true), ("text_area", .stringValue "matey!"),
        ("radio", .intValue 2), ("button", .triggerValue true)] "button").1
      true (by decide)
  · exact (trigger_widgets_reset_on_rerun []
      [("checkbox", .boolValue true), ("text_area", .stringValue "matey!"),
        ("radio", .intValue 2), ("button", .triggerValue true)] "checkbox").2
      (WidgetValue.boolValue true) (by decide) (by decide)
